import Mathlib

/-!
Shallow embedding of the Docstrange-Nanonets-Bridge adaptive chunk-submission
engine (src/config.py, src/main.py, src/utils.py), together with theorems that
settle the specification claims about it.

Modelling conventions:
* Python strings become `String`; a JSON field that may be absent becomes
  `Option`; Python truthiness of a string or list is emptiness testing.
* The network is an environment parameter: each attempt or poll iteration is
  given its outcome as data, so the pure control logic of the source is what
  gets embedded and proved about.
* Wall-clock time in the poller is modelled by the number of remaining loop
  iterations: the deadline is `POLL_MAX_SECONDS` from the start and every
  iteration ends with a `POLL_SLEEP_SEC` sleep, so the while-loop body runs
  exactly `POLL_MAX_SECONDS / POLL_SLEEP_SEC` times (requests themselves are
  modelled as instantaneous).
-/

namespace Bridge

/-- Configuration constants from src/config.py. -/
def DEFAULT_CHUNK_SIZE : Nat := 10

/-- Floor for auto-shrinking, from src/config.py. -/
def MIN_CHUNK_SIZE : Nat := 5

/-- Maximum submission attempts, from src/config.py. -/
def MAX_RETRIES : Nat := 3

/-- Backoff base in seconds, from src/config.py. -/
def RETRY_SLEEP_BASE : Nat := 2

/-- Seconds between polls, from src/config.py. -/
def POLL_SLEEP_SEC : Nat := 2

/-- Polling deadline in seconds, from src/config.py. -/
def POLL_MAX_SECONDS : Nat := 240

/-- ASCII lowering of one character, used to model Python `str.lower()` on the
ASCII phrases and statuses the source compares against. -/
def lowerChar (c : Char) : Char :=
  if 65 ≤ c.toNat ∧ c.toNat ≤ 90 then Char.ofNat (c.toNat + 32) else c

/-- Python `s.lower()` (ASCII fragment, which is all the source compares). -/
def pyLower (s : String) : String :=
  ⟨s.toList.map lowerChar⟩

/-- Helper for Python substring containment: does `needle` occur inside the
character list? -/
def substrAux (needle : List Char) : List Char → Bool
  | [] => needle.isEmpty
  | c :: rest => needle.isPrefixOf (c :: rest) || substrAux needle (rest)

/-- Python `needle in haystack` on strings. -/
def substrIn (needle haystack : String) : Bool :=
  substrAux needle.toList haystack.toList

/-- The status-code strings scanned for in the error message by
`extract_mode_adaptive` (src/main.py), in source order, paired with the
integer each one parses to. -/
def HTTP_SHRINK_CODES : List (String × Nat) :=
  [("408", 408), ("413", 413), ("429", 429), ("500", 500),
   ("502", 502), ("503", 503), ("504", 504)]

/-- The code extraction loop of src/main.py: the first of the seven code
strings that occurs as a substring of the message, parsed to an integer. -/
def findCode (msg : String) : Option Nat :=
  (HTTP_SHRINK_CODES.find? fun c => substrIn c.1 msg).map Prod.snd

/-- `_should_shrink` from src/utils.py: detect server/client signals to
reduce chunk size.  (A Python `None` text argument is conflated with the
empty string, exactly as `text or ""` does.) -/
def _should_shrink (status_code : Nat) (text : String) : Bool :=
  [408, 413, 429, 500, 502, 503, 504].contains status_code ||
    (substrIn "payload too large" (pyLower text) ||
     substrIn "timeout" (pyLower text) ||
     substrIn "timed out" (pyLower text))

/-- The capacity condition tested by `extract_mode_adaptive` on a failed
submission: `code is not None or _should_shrink(code or 0, msg)`. -/
def capacitySignal (msg : String) : Bool :=
  (findCode msg).isSome || _should_shrink ((findCode msg).getD 0) msg

/-- The JSON body shape the service returns (section 6 of the spec; fields
read by src/utils.py).  An absent field is `none`; element types of `tables`
are irrelevant to the control logic and kept as strings. -/
structure Body where
  processing_status : Option String := none
  content : Option String := none
  tables : Option (List String) := none
  pages_processed : Option Int := none
  record_id : Option String := none
deriving DecidableEq, Repr

/-- Python truthiness of an optional string. -/
def truthyStr : Option String → Bool
  | some s => !s.isEmpty
  | none => false

/-- Python truthiness of an optional list. -/
def truthyList : Option (List String) → Bool
  | some l => !l.isEmpty
  | none => false

/-- `str(data.get("processing_status", "")).lower()`. -/
def statusLower (b : Body) : String :=
  pyLower (b.processing_status.getD "")

/-- `int(data.get("pages_processed", 0))`. -/
def pagesProcessed (b : Body) : Int :=
  b.pages_processed.getD 0

/-- The terminal predicate shared by `post_extract` and `poll_until_ready`
(src/utils.py): status is a completion synonym, or content or tables is
truthy, or a positive processed-page count. -/
def isTerminalBody (b : Body) : Bool :=
  ["completed", "done", "finished", "succeeded"].contains (statusLower b) ||
    truthyStr b.content || truthyList b.tables || decide (0 < pagesProcessed b)

/-- What one `post_extract` call looks like to the controller: either the
final result JSON, or a raised exception rendered as its message string. -/
inductive SubmitOutcome
  | ok (res : Body)
  | err (msg : String)
deriving DecidableEq, Repr

/-- Artifacts persisted by `extract_mode_adaptive` via `save_text` and
`save_json` (src/main.py): per-range markdown, per-range JSON, per-range
error marker, and the final merged markdown. -/
inductive Artifact
  | chunkMd (path : String) (text : String)
  | chunkJson (path : String) (res : Body)
  | errorTxt (path : String) (text : String)
  | mergedMd (path : String) (text : String)
deriving DecidableEq, Repr

/-- The mutable state of one (document, mode) pass of
`extract_mode_adaptive`: the loop variables of src/main.py plus the list of
artifacts written so far. -/
structure PassState where
  chunk_size : Nat
  merged_md : List String
  start_page : Nat
  artifacts : List Artifact
deriving DecidableEq, Repr

/-- Initial pass state of `extract_mode_adaptive`:
`chunk_size = DEFAULT_CHUNK_SIZE`, `merged_md = []`, `start_page = 1`. -/
def initPass : PassState :=
  { chunk_size := DEFAULT_CHUNK_SIZE, merged_md := [], start_page := 1,
    artifacts := [] }

/-- The boundary marker appended after each accumulated markdown chunk. -/
def CHUNK_BREAK : String := "\n\n<!-- PAGE-CHUNK BREAK -->\n\n"

/-- The piece appended to `merged_md` for one successful markdown chunk:
`md.rstrip() + "\n\n<!-- PAGE-CHUNK BREAK -->\n\n"` with
`md = res.get("content", "")`. -/
def mdPiece (res : Body) : String :=
  (res.content.getD "").trimRight ++ CHUNK_BREAK

/-- The `p{start}-{end}` range tag of src/main.py. -/
def rangeTag (startPage endPage : Nat) : String :=
  "p" ++ toString startPage ++ "-" ++ toString endPage

/-- One iteration of the while-loop body of `extract_mode_adaptive`, given
the outcome of the `post_extract` call for the current range.  The
materialized chunk bytes do not influence the control flow and are modelled
separately (`buildChunk`). -/
def passStep (mode : String) (mergeMarkdown : Bool) (stem outDir : String)
    (total : Nat) (s : PassState) (o : SubmitOutcome) : PassState :=
  let endPage := min (s.start_page + s.chunk_size - 1) total
  let tag := rangeTag s.start_page endPage
  match o with
  | .err msg =>
    if capacitySignal msg ∧ MIN_CHUNK_SIZE < s.chunk_size then
      { s with chunk_size := max MIN_CHUNK_SIZE (s.chunk_size / 2) }
    else
      { s with
        artifacts := s.artifacts ++
          [.errorTxt (outDir ++ "/" ++ stem ++ "_" ++ tag ++ ".error.txt") msg],
        start_page := endPage + 1 }
  | .ok res =>
    let chunkOut := outDir ++ "/" ++ stem ++ "_" ++ tag ++
      (if mode == "markdown" then ".md" else ".json")
    if mode == "markdown" then
      { s with
        artifacts := s.artifacts ++ [.chunkMd chunkOut (res.content.getD "")],
        merged_md :=
          if mergeMarkdown then s.merged_md ++ [mdPiece res] else s.merged_md,
        start_page := endPage + 1 }
    else
      { s with
        artifacts := s.artifacts ++ [.chunkJson chunkOut res],
        start_page := endPage + 1 }

/-- Log record of one loop iteration: the range printed by the
`-> chunk [tag]` line, the chunk size used, and the submission outcome. -/
structure IterRec where
  first : Nat
  last : Nat
  size : Nat
  outcome : SubmitOutcome
deriving DecidableEq, Repr

/-- The while-loop of `extract_mode_adaptive`, driven by the list of
submission outcomes (one per iteration, in order).  Returns the final state
and the trace of iterations actually executed.  An exhausted outcome list
leaves the loop mid-pass (theorems supply enough outcomes). -/
def runPass (mode : String) (mergeMarkdown : Bool) (stem outDir : String)
    (total : Nat) : PassState → List SubmitOutcome → PassState × List IterRec
  | s, [] => (s, [])
  | s, o :: rest =>
    if s.start_page ≤ total then
      let endPage := min (s.start_page + s.chunk_size - 1) total
      let r := runPass mode mergeMarkdown stem outDir total
        (passStep mode mergeMarkdown stem outDir total s o) rest
      (r.1, ⟨s.start_page, endPage, s.chunk_size, o⟩ :: r.2)
    else (s, [])

/-- The post-loop merge of `extract_mode_adaptive`: if markdown merging was
requested and something accumulated, write `"".join(merged_md)` to
`<outDir>/<stem>.md`. -/
def finalizePass (mergeMarkdown : Bool) (stem outDir : String)
    (s : PassState) : PassState :=
  if mergeMarkdown ∧ ¬ s.merged_md.isEmpty then
    { s with artifacts := s.artifacts ++
        [.mergedMd (outDir ++ "/" ++ stem ++ ".md") (String.join s.merged_md)] }
  else s

/-- `extract_mode_adaptive` end to end, from the initial state. -/
def extract_mode_adaptive (mode : String) (mergeMarkdown : Bool)
    (stem outDir : String) (total : Nat) (outcomes : List SubmitOutcome) :
    PassState × List IterRec :=
  let r := runPass mode mergeMarkdown stem outDir total initPass outcomes
  (finalizePass mergeMarkdown stem outDir r.1, r.2)

/-- The page-range loop shared by `split_pdf_to_chunks` (src/utils.py) and
the controller: starting at `page`, emit `(page, min (page + chunk - 1) n)`
and continue from the end plus one while `page ≤ n`.  Structured on a fuel
argument mirroring the while-loop; `splitRanges` supplies enough fuel for
any `chunk ≥ 1`. -/
def rangesAux (chunk n : Nat) : Nat → Nat → List (Nat × Nat)
  | 0, _ => []
  | fuel + 1, page =>
    if page ≤ n then
      let e := min (page + chunk - 1) n
      (page, e) :: rangesAux chunk n fuel (e + 1)
    else []

/-- The 1-based inclusive ranges produced for a document of `n` pages at
chunk size `chunk` (the `(start_page, end_page)` components yielded by
`split_pdf_to_chunks`). -/
def splitRanges (chunk n : Nat) : List (Nat × Nat) :=
  rangesAux chunk n (n + 1) 1

/-- The pages a range contributes, as the list of page numbers it covers. -/
def rangePages (r : Nat × Nat) : List Nat :=
  List.range' r.1 (r.2 + 1 - r.1)

/-- A page of a materialized chunk: either the source page at the given
0-based index copied successfully, or the blank placeholder page. -/
inductive ChunkPage
  | copied (index : Nat)
  | blank (width height : Nat)
deriving DecidableEq, Repr

/-- The chunk-materializing loop of src/main.py lines 44-56 (same loop as
src/utils.py lines 32-45): for `p in range(start_page - 1, end_page)` copy
page `p`, and when copying raises, print a warning and add a blank 612 by
792 page instead.  `pageFail p = some e` means copying 0-based page `p`
raises with message `e`.  Returns the pages written and the warnings
printed; the operation itself never fails (total function). -/
def buildChunk (pageFail : Nat → Option String) (startPage endPage : Nat) :
    List ChunkPage × List String :=
  let idxs := List.range' (startPage - 1) (endPage - (startPage - 1))
  (idxs.map fun p =>
      match pageFail p with
      | none => ChunkPage.copied p
      | some _ => ChunkPage.blank 612 792,
   idxs.filterMap fun p =>
      (pageFail p).map fun e =>
        "⚠️ Skipping problematic page " ++ toString (p + 1) ++ ": " ++ e)

/-- Python string slicing `s[:n]` (by code points), used for the bounded
body snippets; kept kernel-reducible. -/
def pyTake (s : String) (n : Nat) : String :=
  ⟨s.toList.take n⟩

/-- What the network returns for one POST attempt inside `post_extract`:
either `requests.post` itself raises a `RequestException`, or a response
arrives with a status code, raw text, and (when the body is valid JSON) a
parsed body.  `parsed = none` models a `ValueError` from `resp.json()`. -/
inductive NetOutcome
  | reqException (msg : String)
  | resp (status : Nat) (text : String) (parsed : Option Body)
deriving DecidableEq, Repr

/-- Result of a `post_extract` call that did not raise: the final body, or
the decision to poll the given record id (`return poll_until_ready(rid)`). -/
inductive PostResult
  | final (b : Body)
  | poll (record_id : String)
deriving DecidableEq, Repr

/-- Observable side effects of `post_extract`: backoff sleeps and the
server-error body snippets printed by `_print_server_error`. -/
inductive Ev
  | sleep (seconds : Nat)
  | logBody (snippet : String)
deriving DecidableEq, Repr

/-- The message of the `requests.HTTPError` raised by
`resp.raise_for_status()`; the reason phrase and URL are abstracted away,
keeping the status code that the controller later scans for. -/
def httpErrorMsg (status : Nat) : String :=
  if status < 500 then toString status ++ " Client Error"
  else toString status ++ " Server Error"

/-- Truthiness of `record_id` as tested by `if not rid:`. -/
def ridTruthy (b : Body) : Bool :=
  truthyStr b.record_id

/-- The retry loop of `post_extract` (src/utils.py lines 146-198).  `env`
gives the network outcome of each attempt, `attempt` is the loop index,
`fuel` the attempts left (starting at `MAX_RETRIES`), `lastErr` the message
of the last caught request exception.  Returns the result (or raised
message) plus the event log.  `requests.HTTPError` raised by
`raise_for_status` is a `requests.RequestException`, so the `except` clause
catches it and retries; the `RuntimeError` raises (bad JSON, missing
record id, the final wrap) are not caught. -/
def postLoop (env : Nat → NetOutcome) :
    Nat → Nat → Option String → Except String PostResult × List Ev
  | _, 0, lastErr =>
    (.error ("Extraction failed after " ++ toString MAX_RETRIES ++
      " attempts: " ++ lastErr.getD "None"), [])
  | attempt, fuel + 1, _ =>
    match env attempt with
    | .reqException m =>
      let r := postLoop env (attempt + 1) fuel (some m)
      (r.1, Ev.sleep (RETRY_SLEEP_BASE * (attempt + 1)) :: r.2)
    | .resp st text parsed =>
      if 400 ≤ st then
        let r := postLoop env (attempt + 1) fuel (some (httpErrorMsg st))
        (r.1, Ev.logBody (pyTake text 2000) ::
          Ev.sleep (RETRY_SLEEP_BASE * (attempt + 1)) :: r.2)
      else
        match parsed with
        | none =>
          (.error ("Response was not valid JSON. Snippet:\n" ++ pyTake text 500), [])
        | some b =>
          if isTerminalBody b then (.ok (.final b), [])
          else if ridTruthy b then (.ok (.poll (b.record_id.getD "")), [])
          else (.error "Server returned no record_id; cannot poll.", [])

/-- `post_extract` from src/utils.py: run the attempt loop from attempt 0
with the full retry budget. -/
def post_extract (env : Nat → NetOutcome) : Except String PostResult × List Ev :=
  postLoop env 0 MAX_RETRIES none

/-- What the network returns for one GET inside `poll_until_ready`: a raised
exception (connection error or `resp.json()` failure) or a response with a
status and parsed body. -/
inductive GetOutcome
  | exn (msg : String)
  | resp (status : Nat) (body : Body)
deriving DecidableEq, Repr

/-- The `last_err` variable of `poll_until_ready`: a non-200 response, or a
caught exception. -/
inductive PollErr
  | fromResp (status : Nat)
  | fromExn (msg : String)
deriving DecidableEq, Repr

/-- A GET outcome yields a result exactly when it is an HTTP 200 whose body
satisfies the terminal predicate. -/
def terminal200 : GetOutcome → Option Body
  | .resp st b => if st = 200 ∧ isTerminalBody b then some b else none
  | .exn _ => none

/-- How the query-style attempt updates `last_err`: an exception is stored;
a non-200 response is stored; a 200 (terminal or not) leaves it unchanged.
Path-style attempts never touch `last_err`. -/
def lastErrUpdate (le : Option PollErr) : GetOutcome → Option PollErr
  | .exn m => some (.fromExn m)
  | .resp st _ => if st = 200 then le else some (.fromResp st)

/-- The message raised when the polling deadline passes:
`isinstance(last_err, requests.Response)` selects the HTTP-carrying form,
anything else (no error, or a stored exception) the generic form. -/
def timeoutMsg (rid : String) : Option PollErr → String
  | some (.fromResp st) =>
    "Polling timed out for record_id=" ++ rid ++ " (HTTP " ++ toString st ++ ")"
  | _ => "Polling timed out for record_id=" ++ rid

/-- Per-iteration outcome of `poll_until_ready`: the query-style result is
consulted first, then the path-style one. -/
def iterFirst (env : Nat → GetOutcome × GetOutcome) (i : Nat) : Option Body :=
  match terminal200 (env i).1 with
  | some b => some b
  | none => terminal200 (env i).2

/-- The while-loop of `poll_until_ready` (src/utils.py lines 80-143).
`fuel` is the number of loop-body executions still fitting before the
deadline; each iteration tries query style, then path style, then sleeps. -/
def pollLoop (rid : String) (env : Nat → GetOutcome × GetOutcome) :
    Nat → Nat → Option PollErr → Except String Body
  | _, 0, lastErr => .error (timeoutMsg rid lastErr)
  | i, fuel + 1, lastErr =>
    match terminal200 (env i).1 with
    | some b => .ok b
    | none =>
      let le := lastErrUpdate lastErr (env i).1
      match terminal200 (env i).2 with
      | some b2 => .ok b2
      | none => pollLoop rid env (i + 1) fuel le

/-- Number of executions of the polling loop body before the deadline:
iterations start at elapsed time 0, 2, ..., each taking `POLL_SLEEP_SEC`
seconds, while elapsed time is below `POLL_MAX_SECONDS`. -/
def POLL_ITER_COUNT : Nat := POLL_MAX_SECONDS / POLL_SLEEP_SEC

/-- `poll_until_ready` from src/utils.py. -/
def poll_until_ready (rid : String) (env : Nat → GetOutcome × GetOutcome) :
    Except String Body :=
  pollLoop rid env 0 POLL_ITER_COUNT none

/-- The termination measure of one (document, mode) pass: pages not yet
reached plus the current chunk size. -/
def passMeasure (total : Nat) (s : PassState) : Nat :=
  (total + 1 - s.start_page) + s.chunk_size

/-- The markdown pieces contributed by the successful iterations of a
trace, in trace order. -/
def okPieces (tr : List IterRec) : List String :=
  tr.filterMap fun it =>
    match it.outcome with
    | .ok res => some (mdPiece res)
    | .err _ => none

/-- The start pages of the successful iterations of a trace, in trace
order. -/
def okStarts (tr : List IterRec) : List Nat :=
  tr.filterMap fun it =>
    match it.outcome with
    | .ok _ => some it.first
    | .err _ => none

/-- Concrete synchronously-completed body used in the C5 scenario. -/
def c5Body : Body := { processing_status := some "completed" }

/-- Attempt outcomes for the C5 counterexample: first attempt an HTTP 413,
every later attempt a terminal 200. -/
def c5Env : Nat → NetOutcome := fun i =>
  if i = 0 then .resp 413 "Payload Too Large" none
  else .resp 200 "{}" (some c5Body)

/-- Pending-receipt body used in the C6 witness. -/
def c6Body : Body := { record_id := some "abc" }

/-- The value of `last_err` after `fuel` more iterations starting at
iteration `i` with current value `le`. -/
def lastErrFrom (env : Nat → GetOutcome × GetOutcome) :
    Nat → Nat → Option PollErr → Option PollErr
  | _, 0, le => le
  | i, fuel + 1, le =>
    lastErrFrom env (i + 1) fuel (lastErrUpdate le (env i).1)

/-- The value of `last_err` after the first `n` iterations of a poll. -/
def lastErrAfter (env : Nat → GetOutcome × GetOutcome) (n : Nat) :
    Option PollErr :=
  lastErrFrom env 0 n none

/-- Poll outcomes for the C7 counterexample: iteration 0 a non-200 query
response, all later query attempts raising, nothing ever terminal. -/
def c7Env : Nat → GetOutcome × GetOutcome := fun i =>
  if i = 0 then (GetOutcome.resp 500 {}, GetOutcome.exn "path down")
  else (GetOutcome.exn "connection reset", GetOutcome.exn "path down")

/-- Terminal body used in the C7 witness. -/
def c7wBody : Body := { processing_status := some "done", content := some "X" }

/-- Poll outcomes for the C7 witness: iteration 0 a 404, iteration 1 a
terminal 200 on the query style. -/
def c7wEnv : Nat → GetOutcome × GetOutcome := fun i =>
  if i = 0 then (GetOutcome.resp 404 {}, GetOutcome.exn "x")
  else (GetOutcome.resp 200 c7wBody, GetOutcome.exn "x")

/-- Flattening the page lists of the ranges emitted from `page` onward
recovers the contiguous interval from `page` to `n`, whenever the fuel
covers the remaining pages and the chunk size is positive. -/
theorem rangesAux_flatten (chunk n : Nat) (hc : 1 ≤ chunk) :
    ∀ (fuel page : Nat), 1 ≤ page → n + 1 - page ≤ fuel →
      ((rangesAux chunk n fuel page).map rangePages).flatten =
        List.range' page (n + 1 - page) := by
  intro fuel
  induction fuel with
  | zero =>
    intro page _ hf
    have h0 : n + 1 - page = 0 := by omega
    simp [rangesAux, h0]
  | succ fuel ih =>
    intro page hp hf
    by_cases hle : page ≤ n
    · have he1 : page ≤ min (page + chunk - 1) n := by omega
      have he2 : min (page + chunk - 1) n ≤ n := Nat.min_le_right _ _
      simp only [rangesAux, if_pos hle, List.map_cons, List.flatten_cons]
      rw [ih (min (page + chunk - 1) n + 1) (by omega) (by omega)]
      have h1 : rangePages (page, min (page + chunk - 1) n) =
          List.range' page (min (page + chunk - 1) n + 1 - page) := rfl
      rw [h1]
      have hm : page + 1 * (min (page + chunk - 1) n + 1 - page) =
          min (page + chunk - 1) n + 1 := by omega
      have happ := List.range'_append page
        (min (page + chunk - 1) n + 1 - page)
        (n + 1 - (min (page + chunk - 1) n + 1)) 1
      rw [hm] at happ
      rw [happ]
      have hn2 : n + 1 - (min (page + chunk - 1) n + 1) +
          (min (page + chunk - 1) n + 1 - page) = n + 1 - page := by omega
      rw [hn2]
    · have h0 : n + 1 - page = 0 := by omega
      simp [rangesAux, hle, h0]

/-- C3: for every document of at least one page and every chunk size at
least 1, the 1-based inclusive ranges produced by repeatedly taking
`end = min (start + chunk - 1) total` and continuing at `end + 1` flatten,
page by page and in order, to exactly the interval `[1, total]`: they are a
contiguous, non-overlapping partition covering every page exactly once. -/
theorem split_ranges_partition (chunk total : Nat) (hc : 1 ≤ chunk)
    (ht : 1 ≤ total) :
    ((splitRanges chunk total).map rangePages).flatten = List.range' 1 total := by
  have h := rangesAux_flatten chunk total hc (total + 1) 1 (by omega) (by omega)
  simpa using h

/-- Witness for `split_ranges_partition`: chunk size 3 over 7 pages. -/
theorem split_ranges_partition_witness :
    ((splitRanges 3 7).map rangePages).flatten = List.range' 1 7 :=
  split_ranges_partition 3 7 (by decide) (by decide)

/-- C9: materializing a requested range never fails and yields exactly
`end - start + 1` pages; each position holds the copied source page unless
copying that page fails, in which case a blank 612 by 792 page sits there
and a warning for that page is among the emitted warnings.  Totality of
`buildChunk` is the never-escalated part: every failure is recovered
locally. -/
theorem build_chunk_total (pageFail : Nat → Option String)
    (startPage endPage : Nat) (h1 : 1 ≤ startPage) (h2 : startPage ≤ endPage) :
    (buildChunk pageFail startPage endPage).1.length = endPage - startPage + 1 ∧
    (∀ i, i < endPage - startPage + 1 →
      ((buildChunk pageFail startPage endPage).1)[i]? =
        some (match pageFail (startPage - 1 + i) with
              | none => ChunkPage.copied (startPage - 1 + i)
              | some _ => ChunkPage.blank 612 792)) ∧
    (∀ p e, startPage - 1 ≤ p → p < endPage → pageFail p = some e →
      ("⚠️ Skipping problematic page " ++ toString (p + 1) ++ ": " ++ e) ∈
        (buildChunk pageFail startPage endPage).2) := by
  refine ⟨?_, ?_, ?_⟩
  · simp only [buildChunk, List.length_map, List.length_range']
    omega
  · intro i hi
    have hlt : i < endPage - (startPage - 1) := by omega
    simp only [buildChunk, List.getElem?_map,
      List.getElem?_range' _ _ hlt, Option.map_some', one_mul]
  · intro p e hp1 hp2 hpf
    simp only [buildChunk, List.mem_filterMap]
    refine ⟨p, ?_, by simp [hpf]⟩
    rw [List.mem_range'_1]
    omega

/-- Witness for `build_chunk_total`: range (3, 5) with page index 3 failing. -/
theorem build_chunk_total_witness :
    (buildChunk (fun p => if p = 3 then some "bad xref" else none) 3 5).1.length
        = 5 - 3 + 1 ∧
    (∀ i, i < 5 - 3 + 1 →
      ((buildChunk (fun p => if p = 3 then some "bad xref" else none) 3 5).1)[i]? =
        some (match (if (3 - 1 + i : Nat) = 3 then some "bad xref" else
                      (none : Option String)) with
              | none => ChunkPage.copied (3 - 1 + i)
              | some _ => ChunkPage.blank 612 792)) ∧
    (∀ p e, 3 - 1 ≤ p → p < 5 →
      (if p = 3 then some "bad xref" else none) = some e →
      ("⚠️ Skipping problematic page " ++ toString (p + 1) ++ ": " ++ e) ∈
        (buildChunk (fun p => if p = 3 then some "bad xref" else none) 3 5).2) :=
  build_chunk_total (fun p => if p = 3 then some "bad xref" else none) 3 5
    (by decide) (by decide)

/-- C1: when a submission fails with a capacity signal (a known status code
found in the message, or the shrink heuristic matching) while the chunk
size is above the floor, the controller halves the chunk size
(floor-clamped, strictly smaller), keeps `start_page` unchanged so the same
range is retried with the end recomputed from the new size, and writes no
artifact of any kind for the failed attempt. -/
theorem shrink_on_capacity_failure (mode : String) (mm : Bool)
    (stem outDir : String) (total : Nat) (s : PassState) (msg : String)
    (hcap : capacitySignal msg = true)
    (hfloor : MIN_CHUNK_SIZE < s.chunk_size) :
    passStep mode mm stem outDir total s (.err msg) =
      { s with chunk_size := max MIN_CHUNK_SIZE (s.chunk_size / 2) } ∧
    max MIN_CHUNK_SIZE (s.chunk_size / 2) < s.chunk_size := by
  constructor
  · simp [passStep, hcap, hfloor]
  · have h : MIN_CHUNK_SIZE = 5 := rfl
    omega

/-- Witness for `shrink_on_capacity_failure`: HTTP 413 at chunk size 10. -/
theorem shrink_on_capacity_failure_witness :
    passStep "markdown" true "annual_report" "output/markdown" 20
        { chunk_size := 10, merged_md := [], start_page := 1, artifacts := [] }
        (.err "413 Client Error") =
      { chunk_size := max MIN_CHUNK_SIZE (10 / 2), merged_md := [],
        start_page := 1, artifacts := [] } ∧
    max MIN_CHUNK_SIZE (10 / 2) < 10 :=
  shrink_on_capacity_failure "markdown" true "annual_report" "output/markdown"
    20 { chunk_size := 10, merged_md := [], start_page := 1, artifacts := [] }
    "413 Client Error" (by decide) (by decide)

/-- C4: a submission failure that carries no capacity signal, or arrives
with the chunk size already at (or below) the floor, makes the controller
append exactly one error artifact, named
`<outDir>/<stem>_p<start>-<end>.error.txt` and containing the error text,
and advance `start_page` to `end + 1`, leaving chunk size and accumulated
markdown untouched; the loop then continues with the next range rather than
aborting the pass. -/
theorem error_artifact_on_irrecoverable_failure (mode : String) (mm : Bool)
    (stem outDir : String) (total : Nat) (s : PassState) (msg : String)
    (h : capacitySignal msg = false ∨ s.chunk_size ≤ MIN_CHUNK_SIZE) :
    passStep mode mm stem outDir total s (.err msg) =
      { s with
        artifacts := s.artifacts ++
          [Artifact.errorTxt
            (outDir ++ "/" ++ stem ++ "_" ++
              rangeTag s.start_page (min (s.start_page + s.chunk_size - 1) total) ++
              ".error.txt") msg],
        start_page := min (s.start_page + s.chunk_size - 1) total + 1 } := by
  have hcond : ¬ (capacitySignal msg ∧ MIN_CHUNK_SIZE < s.chunk_size) := by
    rcases h with h | h
    · rintro ⟨h1, _⟩
      rw [h] at h1
      simp at h1
    · rintro ⟨_, h2⟩
      omega
  simp [passStep, hcond]

/-- Witness for `error_artifact_on_irrecoverable_failure`: a non-capacity
failure on the first range of a 12-page pass. -/
theorem error_artifact_on_irrecoverable_failure_witness :
    passStep "tables" false "annual_report" "output/tables" 12 initPass
        (.err "boom") =
      { initPass with
        artifacts := initPass.artifacts ++
          [Artifact.errorTxt
            ("output/tables" ++ "/" ++ "annual_report" ++ "_" ++
              rangeTag initPass.start_page
                (min (initPass.start_page + initPass.chunk_size - 1) 12) ++
              ".error.txt") "boom"],
        start_page := min (initPass.start_page + initPass.chunk_size - 1) 12 + 1 } :=
  error_artifact_on_irrecoverable_failure "tables" false "annual_report"
    "output/tables" 12 initPass "boom" (Or.inl (by decide))

/-- One loop iteration never pushes the chunk size below the floor and
never lets it grow. -/
theorem passStep_chunk_size (mode : String) (mm : Bool) (stem outDir : String)
    (total : Nat) (s : PassState) (o : SubmitOutcome)
    (h : MIN_CHUNK_SIZE ≤ s.chunk_size) :
    MIN_CHUNK_SIZE ≤ (passStep mode mm stem outDir total s o).chunk_size ∧
    (passStep mode mm stem outDir total s o).chunk_size ≤ s.chunk_size := by
  have h5 : MIN_CHUNK_SIZE = 5 := rfl
  cases o with
  | ok res =>
    simp only [passStep]
    split <;> exact ⟨h, le_refl _⟩
  | err msg =>
    simp only [passStep]
    split
    · rename_i hc
      obtain ⟨_, hc2⟩ := hc
      refine ⟨Nat.le_max_left _ _, ?_⟩
      show max MIN_CHUNK_SIZE (s.chunk_size / 2) ≤ s.chunk_size
      omega
    · exact ⟨h, le_refl _⟩

/-- Every executed loop iteration strictly decreases the measure: it either
advances the start page with the chunk size unchanged, or strictly shrinks
the chunk size with the start page unchanged. -/
theorem passStep_measure (mode : String) (mm : Bool) (stem outDir : String)
    (total : Nat) (s : PassState) (o : SubmitOutcome)
    (h : MIN_CHUNK_SIZE ≤ s.chunk_size) (hs : s.start_page ≤ total) :
    passMeasure total (passStep mode mm stem outDir total s o) <
      passMeasure total s := by
  have h5 : MIN_CHUNK_SIZE = 5 := rfl
  cases o with
  | ok res =>
    simp only [passStep, passMeasure]
    split <;> simp <;> omega
  | err msg =>
    simp only [passStep, passMeasure]
    split
    · rename_i hc
      obtain ⟨_, hc2⟩ := hc
      simp
      omega
    · simp
      omega

/-- The final chunk size of a run stays between the floor and the initial
size. -/
theorem runPass_chunk_size (mode : String) (mm : Bool) (stem outDir : String)
    (total : Nat) :
    ∀ (outs : List SubmitOutcome) (s : PassState),
      MIN_CHUNK_SIZE ≤ s.chunk_size →
      MIN_CHUNK_SIZE ≤ (runPass mode mm stem outDir total s outs).1.chunk_size ∧
      (runPass mode mm stem outDir total s outs).1.chunk_size ≤ s.chunk_size := by
  intro outs
  induction outs with
  | nil =>
    intro s h
    exact ⟨h, le_refl _⟩
  | cons o rest ih =>
    intro s h
    simp only [runPass]
    split
    · have hstep := passStep_chunk_size mode mm stem outDir total s o h
      have hrec := ih (passStep mode mm stem outDir total s o) hstep.1
      exact ⟨hrec.1, hrec.2.trans hstep.2⟩
    · exact ⟨h, le_refl _⟩

/-- Per-iteration chunk sizes of a run: all within the floor and the
starting size, non-increasing along the trace, and the first iteration uses
exactly the starting size. -/
theorem runPass_trace_sizes (mode : String) (mm : Bool) (stem outDir : String)
    (total : Nat) :
    ∀ (outs : List SubmitOutcome) (s : PassState),
      MIN_CHUNK_SIZE ≤ s.chunk_size →
      (∀ it ∈ (runPass mode mm stem outDir total s outs).2,
        MIN_CHUNK_SIZE ≤ it.size ∧ it.size ≤ s.chunk_size) ∧
      List.Chain' (fun a b => b.size ≤ a.size)
        (runPass mode mm stem outDir total s outs).2 ∧
      (∀ it, ((runPass mode mm stem outDir total s outs).2).head? = some it →
        it.size = s.chunk_size) := by
  intro outs
  induction outs with
  | nil =>
    intro s _
    refine ⟨by simp [runPass], by simp [runPass], by simp [runPass]⟩
  | cons o rest ih =>
    intro s h
    simp only [runPass]
    split
    · have hstep := passStep_chunk_size mode mm stem outDir total s o h
      obtain ⟨ihmem, ihchain, ihhead⟩ :=
        ih (passStep mode mm stem outDir total s o) hstep.1
      refine ⟨?_, ?_, ?_⟩
      · intro it hit
        rcases List.mem_cons.mp hit with rfl | hmem
        · exact ⟨h, le_refl _⟩
        · have := ihmem it hmem
          exact ⟨this.1, this.2.trans hstep.2⟩
      · refine List.chain'_cons'.mpr ⟨?_, ihchain⟩
        intro y hy
        have hys : y.size = (passStep mode mm stem outDir total s o).chunk_size :=
          ihhead y (by simpa using hy)
        show y.size ≤ s.chunk_size
        rw [hys]
        exact hstep.2
      · intro it hhead
        have hit : it = ⟨s.start_page,
            min (s.start_page + s.chunk_size - 1) total, s.chunk_size, o⟩ := by
          have hhead2 : some (⟨s.start_page,
              min (s.start_page + s.chunk_size - 1) total, s.chunk_size, o⟩ :
                IterRec) = some it := hhead
          exact (Option.some.inj hhead2).symm
        rw [hit]
    · exact ⟨fun it hit => absurd hit (List.not_mem_nil it), trivial,
        fun it hhead => Option.noConfusion hhead⟩

/-- C2: within one (document, mode) pass the chunk size starts at the
configured default, every iteration runs with a size between the floor and
the default, sizes never increase from one iteration to the next, and the
final size is still at or above the floor. -/
theorem chunk_size_floor_and_monotone (mode : String) (mm : Bool)
    (stem outDir : String) (total : Nat) (outs : List SubmitOutcome) :
    initPass.chunk_size = DEFAULT_CHUNK_SIZE ∧
    (∀ it ∈ (runPass mode mm stem outDir total initPass outs).2,
      MIN_CHUNK_SIZE ≤ it.size ∧ it.size ≤ DEFAULT_CHUNK_SIZE) ∧
    List.Chain' (fun a b => b.size ≤ a.size)
      (runPass mode mm stem outDir total initPass outs).2 ∧
    (∀ it, ((runPass mode mm stem outDir total initPass outs).2).head? = some it →
      it.size = DEFAULT_CHUNK_SIZE) ∧
    MIN_CHUNK_SIZE ≤ (runPass mode mm stem outDir total initPass outs).1.chunk_size := by
  have h := runPass_trace_sizes mode mm stem outDir total outs initPass (by decide)
  have h2 := runPass_chunk_size mode mm stem outDir total outs initPass (by decide)
  exact ⟨rfl, h.1, h.2.1, h.2.2, h2.1⟩

/-- Witness for `chunk_size_floor_and_monotone`: a 12-page markdown pass
whose first range hits a 413 and is retried at half size. -/
theorem chunk_size_floor_and_monotone_witness :
    initPass.chunk_size = DEFAULT_CHUNK_SIZE ∧
    (∀ it ∈ (runPass "markdown" true "doc" "out" 12 initPass
        [.err "HTTP 413", .ok {}, .ok {}, .ok {}]).2,
      MIN_CHUNK_SIZE ≤ it.size ∧ it.size ≤ DEFAULT_CHUNK_SIZE) ∧
    List.Chain' (fun a b => b.size ≤ a.size)
      (runPass "markdown" true "doc" "out" 12 initPass
        [.err "HTTP 413", .ok {}, .ok {}, .ok {}]).2 ∧
    (∀ it, ((runPass "markdown" true "doc" "out" 12 initPass
        [.err "HTTP 413", .ok {}, .ok {}, .ok {}]).2).head? = some it →
      it.size = DEFAULT_CHUNK_SIZE) ∧
    MIN_CHUNK_SIZE ≤ (runPass "markdown" true "doc" "out" 12 initPass
        [.err "HTTP 413", .ok {}, .ok {}, .ok {}]).1.chunk_size :=
  chunk_size_floor_and_monotone "markdown" true "doc" "out" 12
    [.err "HTTP 413", .ok {}, .ok {}, .ok {}]

/-- C10: the pass loop terminates.  Once the supply of submission outcomes
reaches the measure, the loop has surely arrived at
`start_page > total`: every iteration either strictly shrinks the chunk
size (bounded below by the floor) or advances the start page by at least
one. -/
theorem pass_terminates (mode : String) (mm : Bool) (stem outDir : String)
    (total : Nat) :
    ∀ (outs : List SubmitOutcome) (s : PassState),
      MIN_CHUNK_SIZE ≤ s.chunk_size →
      passMeasure total s ≤ outs.length →
      total < (runPass mode mm stem outDir total s outs).1.start_page := by
  intro outs
  induction outs with
  | nil =>
    intro s h hf
    have h5 : MIN_CHUNK_SIZE = 5 := rfl
    simp only [runPass]
    simp only [passMeasure, List.length_nil] at hf
    omega
  | cons o rest ih =>
    intro s h hf
    simp only [runPass]
    split
    · rename_i hle
      have hstep := passStep_chunk_size mode mm stem outDir total s o h
      have hm := passStep_measure mode mm stem outDir total s o h hle
      have hlen : (o :: rest).length = rest.length + 1 := rfl
      exact ih (passStep mode mm stem outDir total s o) hstep.1 (by omega)
    · rename_i hle
      simp only []
      omega

/-- Witness for `pass_terminates`: a 3-page pass with 13 outcomes on
offer. -/
theorem pass_terminates_witness :
    3 < (runPass "markdown" true "doc" "out" 3 initPass
        (List.replicate 13 (SubmitOutcome.ok {}))).1.start_page :=
  pass_terminates "markdown" true "doc" "out" 3
    (List.replicate 13 (SubmitOutcome.ok {})) initPass (by decide) (by decide)

theorem okPieces_cons_ok (a b c : Nat) (res : Body) (tr : List IterRec) :
    okPieces (⟨a, b, c, .ok res⟩ :: tr) = mdPiece res :: okPieces tr := rfl

theorem okPieces_cons_err (a b c : Nat) (m : String) (tr : List IterRec) :
    okPieces (⟨a, b, c, .err m⟩ :: tr) = okPieces tr := rfl

theorem okStarts_cons_ok (a b c : Nat) (res : Body) (tr : List IterRec) :
    okStarts (⟨a, b, c, .ok res⟩ :: tr) = a :: okStarts tr := rfl

theorem okStarts_cons_err (a b c : Nat) (m : String) (tr : List IterRec) :
    okStarts (⟨a, b, c, .err m⟩ :: tr) = okStarts tr := rfl

/-- A failed iteration never touches the markdown accumulator. -/
theorem passStep_err_merged (mode : String) (mm : Bool) (stem outDir : String)
    (total : Nat) (s : PassState) (msg : String) :
    (passStep mode mm stem outDir total s (.err msg)).merged_md =
      s.merged_md := by
  simp only [passStep]
  split <;> rfl

/-- A successful markdown iteration with merging on appends exactly its
piece. -/
theorem passStep_ok_merged_markdown (stem outDir : String) (total : Nat)
    (s : PassState) (res : Body) :
    (passStep "markdown" true stem outDir total s (.ok res)).merged_md =
      s.merged_md ++ [mdPiece res] := rfl

/-- Inside the loop the start page never moves backwards. -/
theorem passStep_start_ge (mode : String) (mm : Bool) (stem outDir : String)
    (total : Nat) (s : PassState) (o : SubmitOutcome)
    (hs : s.start_page ≤ total) :
    s.start_page ≤ (passStep mode mm stem outDir total s o).start_page := by
  cases o with
  | ok res =>
    simp only [passStep]
    split <;>
      (show s.start_page ≤ min (s.start_page + s.chunk_size - 1) total + 1
       omega)
  | err msg =>
    simp only [passStep]
    split
    · exact le_refl _
    · show s.start_page ≤ min (s.start_page + s.chunk_size - 1) total + 1
      omega

/-- A successful iteration advances the start page to the range end plus
one. -/
theorem passStep_ok_start (mode : String) (mm : Bool) (stem outDir : String)
    (total : Nat) (s : PassState) (res : Body) :
    (passStep mode mm stem outDir total s (.ok res)).start_page =
      min (s.start_page + s.chunk_size - 1) total + 1 := by
  simp only [passStep]
  split <;> rfl

/-- The chunk size stays positive through an iteration. -/
theorem passStep_cs_pos (mode : String) (mm : Bool) (stem outDir : String)
    (total : Nat) (s : PassState) (o : SubmitOutcome)
    (h : 1 ≤ s.chunk_size) :
    1 ≤ (passStep mode mm stem outDir total s o).chunk_size := by
  cases o with
  | ok res =>
    simp only [passStep]
    split <;> exact h
  | err msg =>
    simp only [passStep]
    split
    · show 1 ≤ max MIN_CHUNK_SIZE (s.chunk_size / 2)
      have h5 : MIN_CHUNK_SIZE = 5 := rfl
      omega
    · exact h

/-- The markdown accumulator of a markdown-with-merge run equals the
initial accumulator followed by the pieces of the successful iterations,
in trace order. -/
theorem runPass_merged_md (stem outDir : String) (total : Nat) :
    ∀ (outs : List SubmitOutcome) (s : PassState),
      (runPass "markdown" true stem outDir total s outs).1.merged_md =
        s.merged_md ++
          okPieces (runPass "markdown" true stem outDir total s outs).2 := by
  intro outs
  induction outs with
  | nil =>
    intro s
    simp [runPass, okPieces]
  | cons o rest ih =>
    intro s
    simp only [runPass]
    split
    · dsimp only
      rw [ih (passStep "markdown" true stem outDir total s o)]
      cases o with
      | ok res =>
        rw [passStep_ok_merged_markdown, okPieces_cons_ok, List.append_assoc]
        rfl
      | err msg =>
        rw [passStep_err_merged, okPieces_cons_err]
    · simp [okPieces]

/-- The start pages of the successful iterations are bounded below by the
starting cursor and strictly increase along the trace. -/
theorem runPass_ok_starts (mode : String) (mm : Bool) (stem outDir : String)
    (total : Nat) :
    ∀ (outs : List SubmitOutcome) (s : PassState), 1 ≤ s.chunk_size →
      (∀ x ∈ okStarts (runPass mode mm stem outDir total s outs).2,
        s.start_page ≤ x) ∧
      List.Chain' (· < ·)
        (okStarts (runPass mode mm stem outDir total s outs).2) := by
  intro outs
  induction outs with
  | nil =>
    intro s _
    exact ⟨fun x hx => absurd hx (List.not_mem_nil x), trivial⟩
  | cons o rest ih =>
    intro s hcs
    simp only [runPass]
    split
    · rename_i hle
      obtain ⟨ihb, ihc⟩ := ih (passStep mode mm stem outDir total s o)
        (passStep_cs_pos mode mm stem outDir total s o hcs)
      have hge := passStep_start_ge mode mm stem outDir total s o hle
      dsimp only
      cases o with
      | err msg =>
        rw [okStarts_cons_err]
        exact ⟨fun x hx => le_trans hge (ihb x hx), ihc⟩
      | ok res =>
        rw [okStarts_cons_ok]
        have hlt : s.start_page <
            (passStep mode mm stem outDir total s (.ok res)).start_page := by
          rw [passStep_ok_start]
          omega
        refine ⟨?_, ?_⟩
        · intro x hx
          rcases List.mem_cons.mp hx with rfl | hmem
          · exact le_refl _
          · exact le_trans hge (ihb x hmem)
        · refine List.chain'_cons'.mpr ⟨?_, ihc⟩
          intro y hy
          have hmem : y ∈ okStarts (runPass mode mm stem outDir total
              (passStep mode mm stem outDir total s (.ok res)) rest).2 := by
            rcases hok : okStarts (runPass mode mm stem outDir total
                (passStep mode mm stem outDir total s (.ok res)) rest).2 with
              _ | ⟨a, t⟩
            · rw [hok] at hy
              simp at hy
            · rw [hok] at hy
              simp only [List.head?_cons, Option.mem_def,
                Option.some.injEq] at hy
              rw [← hy]
              exact List.mem_cons_self a t
          exact lt_of_lt_of_le hlt (ihb y hmem)
    · exact ⟨fun x hx => absurd hx (List.not_mem_nil x), trivial⟩

/-- C8: with markdown merging requested the final artifacts are the
per-range artifacts followed by exactly one merged artifact at
`<outDir>/<stem>.md`, whose content is the concatenation of each successful
chunk content (right-stripped, each followed by the page-chunk boundary
marker) in the order the ranges were processed — an order in which the
successful start pages strictly increase, so ascending page order; when
nothing was accumulated, no merged artifact is written.  The run is a pure
function of the outcomes, so re-running the merge over the same chunk
outputs reproduces the identical artifact. -/
theorem merged_markdown_spec (stem outDir : String) (total : Nat)
    (outs : List SubmitOutcome) :
    (extract_mode_adaptive "markdown" true stem outDir total outs).1.artifacts =
      (runPass "markdown" true stem outDir total initPass outs).1.artifacts ++
        (if okPieces (runPass "markdown" true stem outDir total initPass outs).2
            = [] then []
         else [Artifact.mergedMd (outDir ++ "/" ++ stem ++ ".md")
            (String.join (okPieces
              (runPass "markdown" true stem outDir total initPass outs).2))]) ∧
    List.Chain' (· < ·)
      (okStarts (runPass "markdown" true stem outDir total initPass outs).2) := by
  constructor
  · have hm2 : (runPass "markdown" true stem outDir total initPass outs).1.merged_md
        = okPieces (runPass "markdown" true stem outDir total initPass outs).2 := by
      have hm := runPass_merged_md stem outDir total outs initPass
      simpa [initPass] using hm
    show (finalizePass true stem outDir
        (runPass "markdown" true stem outDir total initPass outs).1).artifacts = _
    by_cases hemp : okPieces
        (runPass "markdown" true stem outDir total initPass outs).2 = []
    · rw [if_pos hemp, List.append_nil]
      simp only [finalizePass]
      rw [if_neg]
      rintro ⟨-, hne⟩
      exact hne (by rw [hm2, hemp]; rfl)
    · rw [if_neg hemp]
      have hne : ¬ (runPass "markdown" true stem outDir total
          initPass outs).1.merged_md.isEmpty = true := by
        rw [hm2]
        rcases List.exists_cons_of_ne_nil hemp with ⟨a, t, hat⟩
        rw [hat]
        exact fun hfalse => Bool.noConfusion hfalse
      simp only [finalizePass]
      rw [if_pos (And.intro (by trivial) hne)]
      rw [hm2]
  · exact (runPass_ok_starts "markdown" true stem outDir total outs initPass
      (by decide)).2

/-- One attempt that sees an HTTP status of 400 or more logs a bounded
prefix of the body, sleeps one backoff period, and passes control to the
next attempt carrying the `HTTPError` message as the last error. -/
theorem postLoop_http_step (env : Nat → NetOutcome) (attempt fuel : Nat)
    (le : Option String) (st : Nat) (text : String) (parsed : Option Body)
    (heq : env attempt = .resp st text parsed) (hst : 400 ≤ st) :
    postLoop env attempt (fuel + 1) le =
      ((postLoop env (attempt + 1) fuel (some (httpErrorMsg st))).1,
       Ev.logBody (pyTake text 2000) ::
         Ev.sleep (RETRY_SLEEP_BASE * (attempt + 1)) ::
         (postLoop env (attempt + 1) fuel (some (httpErrorMsg st))).2) := by
  simp only [postLoop]
  rw [heq]
  simp [hst]

/-- One attempt with a sub-400 response and a parseable body resolves the
call at once: final result, hand-off to polling, or the missing-record-id
raise. -/
theorem postLoop_resp_ok_step (env : Nat → NetOutcome) (attempt fuel : Nat)
    (le : Option String) (st : Nat) (text : String) (b : Body)
    (heq : env attempt = .resp st text (some b)) (hst : ¬ 400 ≤ st) :
    postLoop env attempt (fuel + 1) le =
      (if isTerminalBody b then (.ok (.final b), ([] : List Ev))
       else if ridTruthy b then (.ok (.poll (b.record_id.getD "")), [])
       else (.error "Server returned no record_id; cannot poll.", [])) := by
  simp only [postLoop]
  rw [heq]
  simp [hst]

/-- C5 counterexample: the first attempt returns HTTP 413, yet the call
does not raise — `raise_for_status` throws `requests.HTTPError`, a subclass
of `requests.RequestException`, so the retry handler catches it, logs the
body, sleeps one backoff period and retries; the second attempt succeeds
and the whole call returns a final result.  This refutes the part of the
claim stating a status of at least 400 is raised and not treated as a
retriable transport failure. -/
theorem http_error_retried_cex :
    post_extract c5Env =
      (.ok (.final c5Body),
       [Ev.logBody "Payload Too Large", Ev.sleep 2]) := rfl

/-- C5 as amended: the submission loop retries every failure raised as a
`requests.RequestException` — both transport-level failures and HTTP
status-at-least-400 responses, whose `raise_for_status` error is such an
exception — sleeping `RETRY_SLEEP_BASE * (attempt + 1)` seconds after each
failed attempt, and after the fixed budget raising an error wrapping the
last observed failure; a status of 400 or more additionally has a bounded
2000-character prefix of its body logged before the retry. -/
theorem post_extract_retry_policy :
    (∀ m0 m1 m2 : String,
      post_extract (fun i =>
          if i = 0 then .reqException m0
          else if i = 1 then .reqException m1 else .reqException m2) =
        (.error ("Extraction failed after " ++ toString MAX_RETRIES ++
          " attempts: " ++ m2),
         [Ev.sleep (RETRY_SLEEP_BASE * 1), Ev.sleep (RETRY_SLEEP_BASE * 2),
          Ev.sleep (RETRY_SLEEP_BASE * 3)])) ∧
    (∀ (env : Nat → NetOutcome) (st : Nat) (text : String)
        (parsed : Option Body),
      env 0 = .resp st text parsed → 400 ≤ st →
      post_extract env =
        ((postLoop env 1 2 (some (httpErrorMsg st))).1,
         Ev.logBody (pyTake text 2000) :: Ev.sleep (RETRY_SLEEP_BASE * 1) ::
           (postLoop env 1 2 (some (httpErrorMsg st))).2)) := by
  constructor
  · intro m0 m1 m2
    rfl
  · intro env st text parsed heq hst
    exact postLoop_http_step env 0 2 none st text parsed heq hst

/-- Witness for `post_extract_retry_policy`: three transport failures, and
a first-attempt HTTP 500. -/
theorem post_extract_retry_policy_witness :
    post_extract (fun i =>
        if i = 0 then .reqException "a"
        else if i = 1 then .reqException "b" else .reqException "c") =
      (.error ("Extraction failed after " ++ toString MAX_RETRIES ++
        " attempts: " ++ "c"),
       [Ev.sleep (RETRY_SLEEP_BASE * 1), Ev.sleep (RETRY_SLEEP_BASE * 2),
        Ev.sleep (RETRY_SLEEP_BASE * 3)]) ∧
    post_extract (fun _ => .resp 500 "oops" none) =
      ((postLoop (fun _ => .resp 500 "oops" none) 1 2
          (some (httpErrorMsg 500))).1,
       Ev.logBody (pyTake "oops" 2000) :: Ev.sleep (RETRY_SLEEP_BASE * 1) ::
         (postLoop (fun _ => .resp 500 "oops" none) 1 2
           (some (httpErrorMsg 500))).2) :=
  ⟨post_extract_retry_policy.1 "a" "b" "c",
   post_extract_retry_policy.2 (fun _ => .resp 500 "oops" none) 500 "oops"
     none rfl (by decide)⟩

/-- C6: when the first attempt gets a sub-400 response with a parseable
body `b`: if `b` satisfies the terminal predicate (completion synonym,
truthy content, truthy tables, or positive processed-page count) the call
returns `b` at once as the final result with no polling and no events;
otherwise, with a truthy `record_id`, the call resolves to polling that id;
otherwise it raises the missing-record-id error. -/
theorem post_extract_dispatch (env : Nat → NetOutcome) (st : Nat)
    (text : String) (b : Body) (heq : env 0 = .resp st text (some b))
    (hst : st < 400) :
    (isTerminalBody b = true → post_extract env = (.ok (.final b), [])) ∧
    (isTerminalBody b = false → ridTruthy b = true →
      post_extract env = (.ok (.poll (b.record_id.getD "")), [])) ∧
    (isTerminalBody b = false → ridTruthy b = false →
      post_extract env =
        (.error "Server returned no record_id; cannot poll.", [])) := by
  have hnot : ¬ 400 ≤ st := by omega
  have hbase : post_extract env =
      postLoop env 0 (2 + 1) none := rfl
  have hstep := postLoop_resp_ok_step env 0 2 none st text b heq hnot
  refine ⟨?_, ?_, ?_⟩
  · intro hterm
    rw [hbase, hstep]
    simp [hterm]
  · intro hterm hrid
    rw [hbase, hstep]
    simp [hterm, hrid]
  · intro hterm hrid
    rw [hbase, hstep]
    simp [hterm, hrid]

/-- Witness for `post_extract_dispatch`: a 200 receipt carrying only a
record id resolves to polling "abc". -/
theorem post_extract_dispatch_witness :
    (isTerminalBody c6Body = true →
      post_extract (fun _ => .resp 200 "{}" (some c6Body)) =
        (.ok (.final c6Body), [])) ∧
    (isTerminalBody c6Body = false → ridTruthy c6Body = true →
      post_extract (fun _ => .resp 200 "{}" (some c6Body)) =
        (.ok (.poll (c6Body.record_id.getD "")), [])) ∧
    (isTerminalBody c6Body = false → ridTruthy c6Body = false →
      post_extract (fun _ => .resp 200 "{}" (some c6Body)) =
        (.error "Server returned no record_id; cannot poll.", [])) :=
  post_extract_dispatch (fun _ => .resp 200 "{}" (some c6Body)) 200 "{}"
    c6Body rfl (by decide)

/-- A poll whose remaining iterations are all non-terminal times out with
the message determined by the accumulated last error. -/
theorem pollLoop_timeout (rid : String)
    (env : Nat → GetOutcome × GetOutcome) :
    ∀ (fuel i : Nat) (le : Option PollErr),
      (∀ j, i ≤ j → j < i + fuel → iterFirst env j = none) →
      pollLoop rid env i fuel le =
        .error (timeoutMsg rid (lastErrFrom env i fuel le)) := by
  intro fuel
  induction fuel with
  | zero =>
    intro i le _
    rfl
  | succ fuel ih =>
    intro i le hnone
    have h0 : iterFirst env i = none := hnone i (le_refl i) (by omega)
    have hq : terminal200 (env i).1 = none := by
      unfold iterFirst at h0
      cases hqq : terminal200 (env i).1 with
      | none => rfl
      | some b =>
        rw [hqq] at h0
        exact Option.noConfusion h0
    have hp : terminal200 (env i).2 = none := by
      unfold iterFirst at h0
      rw [hq] at h0
      exact h0
    simp only [pollLoop]
    rw [hq]
    dsimp only
    rw [hp]
    dsimp only
    rw [ih (i + 1) (lastErrUpdate le (env i).1)
      (fun j hj1 hj2 => hnone j (by omega) (by omega))]
    rfl

/-- A poll returns the body of the first terminal iteration, provided it
occurs within the remaining iteration budget. -/
theorem pollLoop_first_terminal (rid : String)
    (env : Nat → GetOutcome × GetOutcome) :
    ∀ (fuel k i : Nat) (le : Option PollErr) (b : Body), k < fuel →
      (∀ j, i ≤ j → j < i + k → iterFirst env j = none) →
      iterFirst env (i + k) = some b →
      pollLoop rid env i fuel le = .ok b := by
  intro fuel
  induction fuel with
  | zero =>
    intro k i le b hk _ _
    exact absurd hk (Nat.not_lt_zero k)
  | succ fuel ih =>
    intro k i le b hk hnone hterm
    cases k with
    | zero =>
      rw [Nat.add_zero] at hterm
      unfold iterFirst at hterm
      simp only [pollLoop]
      cases hq : terminal200 (env i).1 with
      | some b1 =>
        rw [hq] at hterm
        dsimp only at hterm
        dsimp only
        rw [Option.some.inj hterm]
      | none =>
        rw [hq] at hterm
        dsimp only at hterm
        dsimp only
        rw [hterm]
    | succ k =>
      have h0 : iterFirst env i = none := hnone i (le_refl i) (by omega)
      have hq : terminal200 (env i).1 = none := by
        unfold iterFirst at h0
        cases hqq : terminal200 (env i).1 with
        | none => rfl
        | some bb =>
          rw [hqq] at h0
          exact Option.noConfusion h0
      have hp : terminal200 (env i).2 = none := by
        unfold iterFirst at h0
        rw [hq] at h0
        exact h0
      simp only [pollLoop]
      rw [hq]
      dsimp only
      rw [hp]
      dsimp only
      refine ih k (i + 1) (lastErrUpdate le (env i).1) b (by omega)
        (fun j hj1 hj2 => hnone j (by omega) (by omega)) ?_
      rw [show i + 1 + k = i + (k + 1) from by omega]
      exact hterm

/-- C7 counterexample: a non-200 (HTTP 500) query response was observed at
iteration 0, but every later query attempt raises and overwrites the stored
last error, so the timeout raised at the deadline carries the generic
message and not the HTTP 500 status the claim requires for a run in which a
non-200 response exists. -/
theorem poll_timeout_message_cex :
    poll_until_ready "abc" c7Env =
      .error "Polling timed out for record_id=abc" ∧
    (c7Env 0).1 = GetOutcome.resp 500 {} ∧
    "Polling timed out for record_id=abc" ≠
      timeoutMsg "abc" (some (.fromResp 500)) :=
  ⟨rfl, rfl, by decide⟩

/-- C7 as amended: polling returns the body of the first HTTP-200 response
satisfying the terminal predicate, trying the query style and then the path
style within each iteration; if no terminal response arrives in any
iteration before the deadline, a poll-timeout error is raised whose message
is determined by the most recent query-style failure — the HTTP-carrying
form when that failure was a non-200 response, the generic form otherwise,
even when some earlier iteration saw a non-200 response. -/
theorem poll_first_terminal_and_timeout (rid : String)
    (env : Nat → GetOutcome × GetOutcome) :
    (∀ k b, k < POLL_ITER_COUNT → (∀ j, j < k → iterFirst env j = none) →
      iterFirst env k = some b → poll_until_ready rid env = .ok b) ∧
    ((∀ j, j < POLL_ITER_COUNT → iterFirst env j = none) →
      poll_until_ready rid env =
        .error (timeoutMsg rid (lastErrAfter env POLL_ITER_COUNT))) := by
  constructor
  · intro k b hk hnone hterm
    exact pollLoop_first_terminal rid env POLL_ITER_COUNT k 0 none b hk
      (fun j hj1 hj2 => hnone j (by omega)) (by simpa using hterm)
  · intro hnone
    exact pollLoop_timeout rid env POLL_ITER_COUNT 0 none
      (fun j hj1 hj2 => hnone j (by omega))

/-- Witness for `poll_first_terminal_and_timeout`: the second iteration
returns the terminal body. -/
theorem poll_first_terminal_and_timeout_witness :
    poll_until_ready "r1" c7wEnv = .ok c7wBody :=
  (poll_first_terminal_and_timeout "r1" c7wEnv).1 1 c7wBody (by decide)
    (by
      intro j hj
      have hj0 : j = 0 := by omega
      rw [hj0]
      decide)
    (by decide)

end Bridge
